import Mathlib

/-!
Verification of the LR(1) runtime engine in `parsing/lrparser.py`.

The Python module implements a table-driven shift-reduce parser: class `Lr`
keeps a stack of `(Symbol, state)` pairs, consumes tokens through `token()`,
finishes through `eoi()`, and reports syntax errors with `UnexpectedToken`.

Embedding conventions:
- A runtime symbol instance is a `Symbol` record; the Python lookup
  `spec._sym2spec[type(sym)]` (runtime type to grammar descriptor, total and
  injective per the specification contract) is embedded as the `desc` field.
  Semantic payloads are a single `Int` field.
- The compiled specification (`Spec` in `parsing/automaton.py`, an external
  collaborator consumed read-only) is a record of its observable interface:
  the action table, the goto table, the start descriptor, the conflict count,
  the `pureLR` flag and the descriptors of the two sentinel symbol classes
  (`Epsilon`, `EndOfInput`).  Absent dictionary keys are `none`.
- The parse stack is a Lean list with the TOP at the HEAD; the Python list
  stores the top at the end (`stack[-1]`, `append`, `pop`).  Consequently the
  Python slice of the top `n` entries in bottom-to-top order corresponds to
  `(stack.take n).reverse` here, and the bottom-indexed `stack[1]` to
  `stack.reverse.get? 1`.
- Python exceptions are explicit: each operation returns the final state
  paired with `Option ParseError` — `none` for normal return,
  `some unexpectedToken` for the `UnexpectedToken` raise, and `some fatal`
  for every internal invariant violation (failed `assert`, `IndexError` on a
  stack underflow, `KeyError` on a goto miss).  Returning the state together
  with the error mirrors Python mutation semantics: a raise leaves the
  mutated stack in place.
- The `while True` decision loop of `_act` is not structurally terminating
  (a cycle of empty reductions can loop forever), so it takes fuel; `none`
  means the fuel ran out, `some` that the Python call returned or raised.
- Verbose tracing (`_printStack`, `print`) writes to stdout only; the
  embedding carries the `_verbose` flag but no output, so claims about
  tracing are claims about the flag having no effect on stack/result/error.
-/

namespace Parsing

/-- Outcome of a raising operation: `unexpectedToken` is the `UnexpectedToken`
exception of `parsing/errors.py`; `fatal` stands for every internal invariant
violation (`AssertionError`, `IndexError`, `KeyError`). -/
inductive ParseError where
  | unexpectedToken
  | fatal
deriving DecidableEq

/-- A runtime symbol instance.  `desc` is the grammar descriptor of its
runtime type (the value of `spec._sym2spec[type(sym)]`); `val` is the
semantic payload. -/
structure Symbol where
  desc : Nat
  val : Int
deriving DecidableEq

/-- A grammar production: left-hand-side nonterminal descriptor, the
right-hand-side descriptor sequence, and the semantic handler (`%reduce`
method).  The handler receives the freshly constructed nonterminal
placeholder and the popped right-hand-side symbols, and returns either a
replacement symbol (`some`) or nothing (`none`, Python `None`). -/
structure Production where
  lhs : Nat
  rhs : List Nat
  method : Symbol → List Symbol → Option Symbol

/-- An entry of the action table: `ShiftAction(nextState)` or
`ReduceAction(production)` from `parsing/grammar.py`. -/
inductive Action where
  | shift (nextState : Nat)
  | reduce (production : Production)

/-- The compiled specification interface consumed by `Lr` (class `Spec` of
`parsing/automaton.py`, external collaborator).  `action state desc = none`
embeds `desc not in spec._action[state]`; `goto state desc = none` embeds a
`KeyError` in `spec._goto[state][desc]`. -/
structure Spec where
  action : Nat → Nat → Option (List Action)
  goto : Nat → Nat → Option Nat
  userStartSym : Nat
  nConflicts : Nat
  pureLR : Bool
  epsDesc : Nat
  eoiDesc : Nat

/-- A fresh `Epsilon(self)` bottom-of-stack sentinel instance. -/
def epsilonSym (spec : Spec) : Symbol :=
  { desc := spec.epsDesc, val := 0 }

/-- A fresh `EndOfInput(self)` end-of-input sentinel instance. -/
def endOfInputSym (spec : Spec) : Symbol :=
  { desc := spec.eoiDesc, val := 0 }

/-- The mutable state of an `Lr` instance: `_start`, `_stack` (top at the
head here) and `_verbose`. -/
structure LrState where
  start : Option (List Symbol)
  stack : List (Symbol × Nat)
  verbose : Bool
deriving DecidableEq

/-- The fresh nonterminal placeholder `production.lhs.nontermType(self)`:
a new instance of the left-hand-side nonterminal type, whose runtime type
maps to the `lhs` descriptor; its payload starts at the default value. -/
def Lr.placeholder (p : Production) : Symbol :=
  { desc := p.lhs, val := 0 }

/-- `Lr._production`: construct the placeholder, invoke the semantic handler
with it and the popped right-hand-side symbols, and translate a `None`
return to the placeholder itself. -/
def Lr.production (p : Production) (rhs : List Symbol) : Symbol :=
  let sym := Lr.placeholder p
  match p.method sym rhs with
  | none => sym
  | some r => r

/-- `Lr._reduce`: gather the top `len(production.rhs)` symbols in
bottom-to-top (left-to-right) order, run `_production`, pop them, and push
the result with the goto state of the entry now on top.  `stack.drop nRhs`
being `[]` embeds the `IndexError` of popping past the bottom or of reading
`stack[-1]` from an emptied stack (the stack is empty at that moment); a
goto miss embeds the `KeyError` and leaves the popped stack in place. -/
def Lr.reduce (spec : Spec) (p : Production) (stack : List (Symbol × Nat)) :
    List (Symbol × Nat) × Option ParseError :=
  let nRhs := p.rhs.length
  let rhs := ((stack.take nRhs).map Prod.fst).reverse
  let r := Lr.production p rhs
  match stack.drop nRhs with
  | [] => ([], some ParseError.fatal)
  | top :: rest =>
    match spec.goto top.2 p.lhs with
    | none => (top :: rest, some ParseError.fatal)
    | some g => ((r, g) :: top :: rest, none)

/-- The `while True` loop of `Lr._act`, on the stack alone and with fuel.
Each iteration reads the decision state from the top entry (`top.2`,
Python `self._stack[-1][1]`), looks up the action list for the incoming
descriptor, raises `UnexpectedToken` on a missing entry, shifts and exits,
or reduces and repeats.  An action list whose length is not 1 fails the
`assert len(actions) == 1`. -/
def Lr.actLoop (spec : Spec) (sym : Symbol) (symSpec : Nat) :
    Nat → List (Symbol × Nat) → Option (List (Symbol × Nat) × Option ParseError)
  | 0, _ => none
  | fuel + 1, stack =>
    match stack with
    | [] => some ([], some ParseError.fatal)
    | top :: rest =>
      match spec.action top.2 symSpec with
      | none => some (top :: rest, some ParseError.unexpectedToken)
      | some actions =>
        match actions with
        | [Action.shift nextState] => some ((sym, nextState) :: top :: rest, none)
        | [Action.reduce p] =>
          match Lr.reduce spec p (top :: rest) with
          | (stack2, some e) => some (stack2, some e)
          | (stack2, none) => Lr.actLoop spec sym symSpec fuel stack2
        | _ => some (top :: rest, some ParseError.fatal)

/-- `Lr._act` on the full instance state (tracing has no modelled effect). -/
def Lr.act (spec : Spec) (fuel : Nat) (sym : Symbol) (symSpec : Nat)
    (st : LrState) : Option (LrState × Option ParseError) :=
  match Lr.actLoop spec sym symSpec fuel st.stack with
  | none => none
  | some (s, e) => some ({ st with stack := s }, e)

/-- `Lr.token`: resolve the token to its descriptor and run `_act`. -/
def Lr.token (spec : Spec) (fuel : Nat) (tok : Symbol) (st : LrState) :
    Option (LrState × Option ParseError) :=
  Lr.act spec fuel tok tok.desc st

/-- `Lr.eoi`: feed a fresh `EndOfInput` sentinel through `token`, then
assert the top of stack is that sentinel, pop it, publish
`[self._stack[1][0]]` (bottom index 1) as `_start`, and assert its
descriptor is the user start symbol.  Note the `_start` assignment happens
before the final assert, so it persists even when that assert fails. -/
def Lr.eoi (spec : Spec) (fuel : Nat) (st : LrState) :
    Option (LrState × Option ParseError) :=
  let token := endOfInputSym spec
  match Lr.token spec fuel token st with
  | none => none
  | some (st2, some e) => some (st2, some e)
  | some (st2, none) =>
    match st2.stack with
    | [] => some (st2, some ParseError.fatal)
    | topEntry :: rest =>
      if topEntry.1 = token then
        let st3 := { st2 with stack := rest }
        match rest.reverse.get? 1 with
        | none => some (st3, some ParseError.fatal)
        | some entry =>
          let st4 := { st3 with start := some [entry.1] }
          if entry.1.desc = spec.userStartSym then some (st4, none)
          else some (st4, some ParseError.fatal)
      else some (st2, some ParseError.fatal)

/-- `Lr.reset`: clear `_start` and reinitialize the stack to the single
bottom-sentinel entry at state 0. -/
def Lr.reset (spec : Spec) (st : LrState) : LrState :=
  { st with start := none, stack := [(epsilonSym spec, 0)] }

/-- `Lr.__init__`: assert `spec.pureLR` (the receiver type is `Lr` itself
here) and `spec._nConflicts == 0`, then `reset()` and set `_verbose` to
`False`.  A failed assert is a fatal construction error. -/
def Lr.init (spec : Spec) : Except ParseError LrState :=
  if spec.pureLR = true then
    if spec.nConflicts = 0 then
      Except.ok (Lr.reset spec { start := none, stack := [], verbose := false })
    else Except.error ParseError.fatal
  else Except.error ParseError.fatal

/-- The `verbose` property setter (`__setVerbose`; the `assert
type(verbose) == bool` always holds for a `Bool` argument). -/
def Lr.setVerbose (b : Bool) (st : LrState) : LrState :=
  { st with verbose := b }

/-- Driver: feed a list of tokens in order through `token`, stopping at the
first raise, as a caller of the engine would. -/
def Lr.feed (spec : Spec) (fuel : Nat) :
    List Symbol → LrState → Option (LrState × Option ParseError)
  | [], st => some (st, none)
  | t :: ts, st =>
    match Lr.token spec fuel t st with
    | none => none
    | some (st2, some e) => some (st2, some e)
    | some (st2, none) => Lr.feed spec fuel ts st2

/-- Driver: feed a whole sentence and terminate with `eoi`. -/
def Lr.run (spec : Spec) (fuel : Nat) (ts : List Symbol) (st : LrState) :
    Option (LrState × Option ParseError) :=
  match Lr.feed spec fuel ts st with
  | none => none
  | some (st2, some e) => some (st2, some e)
  | some (st2, none) => Lr.eoi spec fuel st2

/-- The caller-observable outcome of an operation: final stack, final
result list and error, with the trace flag projected away. -/
def Lr.obs (r : Option (LrState × Option ParseError)) :
    Option (List (Symbol × Nat) × Option (List Symbol) × Option ParseError) :=
  r.map fun q => (q.1.stack, q.1.start, q.2)

/-- A chain of successful reductions performed by the decision loop of
`_act` on the incoming descriptor `symSpec`, relating the stack at entry of
an iteration to the stack at entry of a later iteration. -/
inductive Lr.ReducePath (spec : Spec) (symSpec : Nat) :
    List (Symbol × Nat) → List (Symbol × Nat) → Prop where
  | refl (s : List (Symbol × Nat)) : Lr.ReducePath spec symSpec s s
  | step {s2 s3 : List (Symbol × Nat)} (top : Symbol × Nat)
      (rest : List (Symbol × Nat)) (p : Production) :
      spec.action top.2 symSpec = some [Action.reduce p] →
      Lr.reduce spec p (top :: rest) = (s2, none) →
      Lr.ReducePath spec symSpec s2 s3 →
      Lr.ReducePath spec symSpec (top :: rest) s3

/-- The stack invariant of the specification: the stack is never empty and
its bottom slot holds the `Epsilon` sentinel paired with state 0. -/
def Lr.StackInv (spec : Spec) (stack : List (Symbol × Nat)) : Prop :=
  ∃ pre, stack = pre ++ [(epsilonSym spec, 0)]

/-- Concrete deterministic grammar for witnesses: start symbol `S` with the
single production `S → a`.  Descriptors: 0 = Epsilon, 1 = EndOfInput,
2 = terminal `a`, 3 = nonterminal `S`.  The handler only mutates the
placeholder (returns `None`). -/
def p1 : Production :=
  { lhs := 3, rhs := [2], method := fun _ _ => none }

/-- Action and goto tables of the `S → a` grammar, LR(1)-compiled by hand:
state 0 shifts `a` to state 1; state 1 reduces `S → a` on end-of-input;
state 2 (after goto on `S`) shifts end-of-input to state 3. -/
def g1 : Spec where
  action := fun state d =>
    match state, d with
    | 0, 2 => some [Action.shift 1]
    | 1, 1 => some [Action.reduce p1]
    | 2, 1 => some [Action.shift 3]
    | _, _ => none
  goto := fun state d =>
    match state, d with
    | 0, 3 => some 2
    | _, _ => none
  userStartSym := 3
  nConflicts := 0
  pureLR := true
  epsDesc := 0
  eoiDesc := 1

/-- The freshly constructed engine state for `g1`. -/
def g1st : LrState :=
  { start := none, stack := [(Symbol.mk 0 0, 0)], verbose := false }

/-- The `g1` engine state after feeding the terminal `a` (payload 5). -/
def g1stA : LrState :=
  { start := none, stack := [(Symbol.mk 2 5, 1), (Symbol.mk 0 0, 0)], verbose := false }

/-- The `g1` engine state after a successful `eoi` from `g1stA`. -/
def g1stDone : LrState :=
  { start := some [Symbol.mk 3 0],
    stack := [(Symbol.mk 3 0, 2), (Symbol.mk 0 0, 0)],
    verbose := false }

/-- A specification identical to `g1` except for a nonzero conflict
count. -/
def g1bad : Spec :=
  { g1 with nConflicts := 1 }

/-- Adversarial specification accepted by the engine on the sentence
`a b`: every token is shifted, including end-of-input, so the accepting
stack holds two symbols between the bottom sentinel and the end-of-input
sentinel.  Descriptors: 0 = Epsilon, 1 = EndOfInput, 2 = terminal `a`
(also the declared start descriptor), 3 = terminal `b`. -/
def cSpec : Spec where
  action := fun state d =>
    match state, d with
    | 0, 2 => some [Action.shift 1]
    | 1, 3 => some [Action.shift 2]
    | 2, 1 => some [Action.shift 3]
    | _, _ => none
  goto := fun _ _ => none
  userStartSym := 2
  nConflicts := 0
  pureLR := true
  epsDesc := 0
  eoiDesc := 1

/-- The `cSpec` engine state after feeding the terminals `a` then `b`. -/
def cStB : LrState :=
  { start := none,
    stack := [(Symbol.mk 3 0, 2), (Symbol.mk 2 0, 1), (Symbol.mk 0 0, 0)],
    verbose := false }

/-- The `cSpec` engine state after the (successful) `eoi` from `cStB`. -/
def cStDone : LrState :=
  { start := some [Symbol.mk 2 0],
    stack := [(Symbol.mk 3 0, 2), (Symbol.mk 2 0, 1), (Symbol.mk 0 0, 0)],
    verbose := false }

/-! ## Helper lemmas -/

/-- `_reduce` never raises `UnexpectedToken`: its only raises are internal
invariant violations. -/
theorem Lr.reduce_error_fatal {spec : Spec} {p : Production}
    {stack s : List (Symbol × Nat)} {e : ParseError}
    (h : Lr.reduce spec p stack = (s, some e)) : e = ParseError.fatal := by
  simp only [Lr.reduce] at h
  split at h
  · injection h with h1 h2
    injection h2 with h3
    exact h3.symm
  · split at h
    · injection h with h1 h2
      injection h2 with h3
      exact h3.symm
    · simp at h

/-- Shape of a successful `_reduce`: the top `n` entries are replaced by the
production result paired with the goto state of the entry left on top. -/
theorem Lr.reduce_ok_shape {spec : Spec} {p : Production}
    {stack stack2 : List (Symbol × Nat)}
    (h : Lr.reduce spec p stack = (stack2, none)) :
    ∃ top rest g, stack.drop p.rhs.length = top :: rest ∧
      spec.goto top.2 p.lhs = some g ∧
      stack2 = (Lr.production p (((stack.take p.rhs.length).map Prod.fst).reverse), g)
        :: top :: rest := by
  simp only [Lr.reduce] at h
  split at h
  · simp at h
  · next top rest hd =>
    split at h
    · simp at h
    · next g hg =>
      refine ⟨top, rest, g, hd, hg, ?_⟩
      exact ((Prod.mk.injEq _ _ _ _ ▸ h).1).symm

/-- A successful construction yields the canonical fresh state. -/
theorem Lr.init_ok {spec : Spec} {st : LrState}
    (h : Lr.init spec = Except.ok st) :
    st = { start := none, stack := [(epsilonSym spec, 0)], verbose := false } := by
  unfold Lr.init at h
  by_cases hp : spec.pureLR = true
  · rw [if_pos hp] at h
    by_cases hc : spec.nConflicts = 0
    · rw [if_pos hc] at h
      injection h with h2
      exact h2.symm
    · rw [if_neg hc] at h
      cases h
  · rw [if_neg hp] at h
    cases h

/-! ## C3: reduction arity -/

/-- C3.  For every production `P` with right-hand-side length `n ≥ 0` and
every stack on which `_reduce` by `P` completes, exactly `n` entries are
popped and exactly one is pushed (net length change `1 - n`), and the
pushed entry's state is the goto-table entry for the state of the entry on
top after the pops and `P`'s left-hand-side descriptor; for `n = 0` nothing
is popped and the entry now on top is the top before the push. -/
theorem c3_reduction_arity (spec : Spec) (p : Production)
    (stack stack2 : List (Symbol × Nat))
    (h : Lr.reduce spec p stack = (stack2, none)) :
    stack2.length + p.rhs.length = stack.length + 1 ∧
    ∃ top rest g, stack.drop p.rhs.length = top :: rest ∧
      spec.goto top.2 p.lhs = some g ∧
      stack2 = (Lr.production p (((stack.take p.rhs.length).map Prod.fst).reverse), g)
        :: top :: rest := by
  obtain ⟨top, rest, g, hd, hg, hs⟩ := Lr.reduce_ok_shape h
  refine ⟨?_, top, rest, g, hd, hg, hs⟩
  have hlen : (stack.drop p.rhs.length).length = stack.length - p.rhs.length :=
    List.length_drop _ _
  rw [hd] at hlen
  have hle : p.rhs.length ≤ stack.length := by
    by_contra hlt
    push_neg at hlt
    have : stack.drop p.rhs.length = [] := List.drop_eq_nil_of_le (le_of_lt hlt)
    rw [hd] at this
    cases this
  rw [hs]
  simp only [List.length_cons] at hlen ⊢
  omega

/-- C3 witness: the reduction `S → a` of `g1` pops one entry and pushes
one. -/
theorem c3_reduction_arity_witness :
    ([(Symbol.mk 3 0, 2), (Symbol.mk 0 0, 0)] : List (Symbol × Nat)).length + p1.rhs.length
      = ([(Symbol.mk 2 5, 1), (Symbol.mk 0 0, 0)] : List (Symbol × Nat)).length + 1 ∧
    ∃ top rest g,
      ([(Symbol.mk 2 5, 1), (Symbol.mk 0 0, 0)] : List (Symbol × Nat)).drop p1.rhs.length
        = top :: rest ∧
      g1.goto top.2 p1.lhs = some g ∧
      ([(Symbol.mk 3 0, 2), (Symbol.mk 0 0, 0)] : List (Symbol × Nat)) =
        (Lr.production p1 ((([(Symbol.mk 2 5, 1), (Symbol.mk 0 0, 0)]
            : List (Symbol × Nat)).take p1.rhs.length).map Prod.fst).reverse, g)
          :: top :: rest :=
  c3_reduction_arity g1 p1 [(Symbol.mk 2 5, 1), (Symbol.mk 0 0, 0)]
    [(Symbol.mk 3 0, 2), (Symbol.mk 0 0, 0)] (by decide)

/-! ## C4: semantic handler invocation and default result -/

/-- C4.  Every reduction constructs a fresh placeholder of the production's
left-hand-side type, invokes the semantic handler with the placeholder and
the popped right-hand-side symbols in left-to-right order, and pushes the
handler's return value when it returns a symbol and the placeholder itself
when it returns none. -/
theorem c4_handler_default_result (p : Production) (rhs : List Symbol) :
    (Lr.placeholder p).desc = p.lhs ∧
    (p.method (Lr.placeholder p) rhs = none →
      Lr.production p rhs = Lr.placeholder p) ∧
    (∀ r, p.method (Lr.placeholder p) rhs = some r → Lr.production p rhs = r) ∧
    (∀ (spec : Spec) (stack stack2 : List (Symbol × Nat)),
      Lr.reduce spec p stack = (stack2, none) →
      stack2.head?.map Prod.fst =
        some (Lr.production p (((stack.take p.rhs.length).map Prod.fst).reverse))) := by
  refine ⟨rfl, ?_, ?_, ?_⟩
  · intro h
    simp only [Lr.production]
    rw [h]
  · intro r h
    simp only [Lr.production]
    rw [h]
  · intro spec stack stack2 h
    obtain ⟨top, rest, g, _, _, hs⟩ := Lr.reduce_ok_shape h
    rw [hs]
    rfl

/-- C4 witness: the `S → a` handler of `g1` returns none, so the reduction
result is the placeholder itself. -/
theorem c4_handler_default_result_witness :
    Lr.production p1 [Symbol.mk 2 5] = Lr.placeholder p1 ∧
    Lr.production p1 [Symbol.mk 2 5] = Symbol.mk 3 0 :=
  ⟨(c4_handler_default_result p1 [Symbol.mk 2 5]).2.1 rfl,
   ((c4_handler_default_result p1 [Symbol.mk 2 5]).2.1 rfl).trans rfl⟩

/-! ## C8: conflict count must be zero -/

/-- C8.  Constructing the deterministic engine from a specification with a
nonzero conflict count fails fast instead of yielding a usable instance. -/
theorem c8_nonzero_conflicts_refused (spec : Spec)
    (h : spec.nConflicts ≠ 0) :
    Lr.init spec = Except.error ParseError.fatal := by
  unfold Lr.init
  by_cases hp : spec.pureLR = true
  · rw [if_pos hp, if_neg h]
  · rw [if_neg hp]

/-- C8 witness: construction from `g1bad` (one conflict) is refused. -/
theorem c8_nonzero_conflicts_refused_witness :
    Lr.init g1bad = Except.error ParseError.fatal :=
  c8_nonzero_conflicts_refused g1bad (by decide)

/-! ## C10: reset leaves the verbose flag unchanged -/

/-- C10.  `reset()` does not touch the verbose flag — it persists across
resets — while the flag is initialized to false only at construction. -/
theorem c10_reset_preserves_verbose :
    (∀ (spec : Spec) (st : LrState), (Lr.reset spec st).verbose = st.verbose) ∧
    (∀ (spec : Spec) (st : LrState), Lr.init spec = Except.ok st → st.verbose = false) ∧
    (∀ (spec : Spec) (st : LrState),
      (Lr.reset spec (Lr.setVerbose true st)).verbose = true) := by
  refine ⟨fun _ _ => rfl, ?_, fun _ _ => rfl⟩
  intro spec st h
  rw [Lr.init_ok h]

/-- C10 witness: a reset after enabling tracing keeps tracing enabled, and
the freshly constructed `g1` engine has it disabled. -/
theorem c10_reset_preserves_verbose_witness :
    (Lr.reset g1 (Lr.setVerbose true g1st)).verbose = true ∧ g1st.verbose = false :=
  ⟨c10_reset_preserves_verbose.2.2 g1 g1st,
   c10_reset_preserves_verbose.2.1 g1 g1st rfl⟩

/-- Decompose a returning `token` call into the underlying decision-loop
run: the final stack is the loop result and the other fields are
untouched. -/
theorem Lr.token_some_inv {spec : Spec} {fuel : Nat} {t : Symbol}
    {st st2 : LrState} {e : Option ParseError}
    (h : Lr.token spec fuel t st = some (st2, e)) :
    Lr.actLoop spec t t.desc fuel st.stack = some (st2.stack, e) ∧
    st2.start = st.start ∧ st2.verbose = st.verbose := by
  simp only [Lr.token, Lr.act] at h
  cases hl : Lr.actLoop spec t t.desc fuel st.stack with
  | none => rw [hl] at h; cases h
  | some q =>
    obtain ⟨s, e2⟩ := q
    rw [hl] at h
    injection h with h1
    injection h1 with h2 h3
    subst h3
    subst h2
    exact ⟨rfl, rfl, rfl⟩

/-- Reassemble a `token` result from a decision-loop run. -/
theorem Lr.token_some_intro {spec : Spec} {fuel : Nat} {t : Symbol}
    {st : LrState} {s : List (Symbol × Nat)} {e : Option ParseError}
    (hl : Lr.actLoop spec t t.desc fuel st.stack = some (s, e)) :
    Lr.token spec fuel t st = some ({ st with stack := s }, e) := by
  simp only [Lr.token, Lr.act]
  rw [hl]

/-- Forward characterization of `UnexpectedToken`: when the decision loop
raises it, the final stack is reached from the entry stack by the completed
reductions alone and its top state has no action entry for the incoming
descriptor. -/
theorem Lr.actLoop_ut_forward {spec : Spec} {sym : Symbol} {symSpec : Nat} :
    ∀ {fuel : Nat} {stack s : List (Symbol × Nat)},
      Lr.actLoop spec sym symSpec fuel stack
        = some (s, some ParseError.unexpectedToken) →
      Lr.ReducePath spec symSpec stack s ∧
        ∃ top rest, s = top :: rest ∧ spec.action top.2 symSpec = none := by
  intro fuel
  induction fuel with
  | zero => intro stack s h; exact Option.noConfusion h
  | succ fuel ih =>
    intro stack s h
    cases stack with
    | nil =>
      simp only [Lr.actLoop] at h
      injection h with h1
      injection h1 with h2 h3
      injection h3 with h4
      cases h4
    | cons top rest =>
      simp only [Lr.actLoop] at h
      split at h
      · next hact =>
        injection h with h1
        injection h1 with h2 h3
        subst h2
        exact ⟨Lr.ReducePath.refl _, top, rest, rfl, hact⟩
      · next actions hact =>
        split at h
        · injection h with h1
          injection h1 with h2 h3
          cases h3
        · rename_i p
          split at h
          · next stack2 e heq2 =>
            injection h with h1
            injection h1 with h2 h3
            injection h3 with h4
            have := Lr.reduce_error_fatal heq2
            rw [this] at h4
            cases h4
          · next stack2 heq2 =>
            obtain ⟨path, top2, rest2, hs, hdead⟩ := ih h
            exact ⟨Lr.ReducePath.step top rest p hact heq2 path,
              top2, rest2, hs, hdead⟩
        · injection h with h1
          injection h1 with h2 h3
          injection h3 with h4
          cases h4

/-- Determinism of the decision loop along a reduce chain: if a chain of
successful reductions leads from the entry stack to a stack whose top state
has no action entry, then any terminating run of the loop from the entry
stack raises `UnexpectedToken` there, with exactly that stack. -/
theorem Lr.actLoop_path_determines {spec : Spec} {sym : Symbol} {symSpec : Nat}
    {stack s : List (Symbol × Nat)}
    (path : Lr.ReducePath spec symSpec stack s)
    (hdead : ∃ top rest, s = top :: rest ∧ spec.action top.2 symSpec = none) :
    ∀ {fuel : Nat} {r : List (Symbol × Nat) × Option ParseError},
      Lr.actLoop spec sym symSpec fuel stack = some r →
      r = (s, some ParseError.unexpectedToken) := by
  induction path with
  | refl t =>
    intro fuel r h
    obtain ⟨top, rest, hs, hact⟩ := hdead
    subst hs
    cases fuel with
    | zero => exact Option.noConfusion h
    | succ fuel =>
      simp only [Lr.actLoop] at h
      split at h
      · injection h with h1
        exact h1.symm
      · next actions hact2 =>
        rw [hact] at hact2
        cases hact2
  | step top rest p hact hred tail ih =>
    intro fuel r h
    cases fuel with
    | zero => exact Option.noConfusion h
    | succ fuel =>
      simp only [Lr.actLoop] at h
      split at h
      · next hact2 =>
        rw [hact] at hact2
        cases hact2
      · next actions hact2 =>
        rw [hact] at hact2
        injection hact2 with h1
        split at h
        · cases h1
        · rename_i p2
          injection h1 with hh ht
          injection hh with h4
          subst h4
          split at h
          · next stack2 e heq2 =>
            rw [hred] at heq2
            injection heq2 with h2 h3
            cases h3
          · next stack2 heq2 =>
            rw [hred] at heq2
            injection heq2 with h2 h3
            subst h2
            exact ih hdead h
        · rename_i hns hnr
          exact absurd h1.symm (hnr p)

/-- `eoi` raises `UnexpectedToken` exactly when its inner `token` call on
the synthesized end-of-input sentinel does; no later step of `eoi` raises
it. -/
theorem Lr.eoi_ut_iff {spec : Spec} {fuel : Nat} {st st2 : LrState} :
    Lr.eoi spec fuel st = some (st2, some ParseError.unexpectedToken) ↔
    Lr.token spec fuel (endOfInputSym spec) st
      = some (st2, some ParseError.unexpectedToken) := by
  constructor
  · intro h
    simp only [Lr.eoi] at h
    split at h
    · exact Option.noConfusion h
    · next st3 e heq =>
      injection h with h1
      injection h1 with h2 h3
      subst h2
      injection h3 with h4
      subst h4
      exact heq
    · next st3 heq =>
      exfalso
      split at h
      · simp at h
      · next topEntry rest hstack =>
        split at h
        · split at h
          · simp at h
          · next entry hget =>
            split at h
            · simp at h
            · simp at h
        · simp at h
  · intro h
    simp only [Lr.eoi]
    rw [h]

/-- A `feed` run that raises `UnexpectedToken` splits the token list at the
first failing token: every earlier token call succeeded. -/
theorem Lr.feed_ut_split {spec : Spec} {fuel : Nat} :
    ∀ {ts : List Symbol} {st stF : LrState},
      Lr.feed spec fuel ts st = some (stF, some ParseError.unexpectedToken) →
      ∃ pre t post st1, ts = pre ++ t :: post ∧
        Lr.feed spec fuel pre st = some (st1, none) ∧
        Lr.token spec fuel t st1 = some (stF, some ParseError.unexpectedToken) := by
  intro ts
  induction ts with
  | nil =>
    intro st stF h
    simp only [Lr.feed] at h
    injection h with h1
    injection h1 with h2 h3
    cases h3
  | cons t ts ih =>
    intro st stF h
    simp only [Lr.feed] at h
    split at h
    · exact Option.noConfusion h
    · next st2 e heq =>
      injection h with h1
      injection h1 with h2 h3
      subst h2
      injection h3 with h4
      subst h4
      exact ⟨[], t, ts, st, rfl, rfl, heq⟩
    · next st2 heq =>
      obtain ⟨pre, t2, post, st1, happ, hpre, htok⟩ := ih h
      refine ⟨t :: pre, t2, post, st1, by rw [happ, List.cons_append], ?_, htok⟩
      simp only [Lr.feed]
      rw [heq]
      exact hpre

/-- Conversely, a successful `feed` of a prefix followed by a token call
that raises `UnexpectedToken` makes the whole `feed` raise it there. -/
theorem Lr.feed_ok_append {spec : Spec} {fuel : Nat} :
    ∀ {pre : List Symbol} {st st1 : LrState},
      Lr.feed spec fuel pre st = some (st1, none) →
      ∀ {t : Symbol} {post : List Symbol} {stF : LrState},
        Lr.token spec fuel t st1 = some (stF, some ParseError.unexpectedToken) →
        Lr.feed spec fuel (pre ++ t :: post) st
          = some (stF, some ParseError.unexpectedToken) := by
  intro pre
  induction pre with
  | nil =>
    intro st st1 h t post stF htok
    simp only [Lr.feed] at h
    injection h with h1
    injection h1 with h2 h3
    subst h2
    simp only [List.nil_append, Lr.feed]
    rw [htok]
  | cons q pre ih =>
    intro st st1 h t post stF htok
    simp only [Lr.feed] at h
    split at h
    · exact Option.noConfusion h
    · next st2 e heq =>
      injection h with h1
      injection h1 with h2 h3
      cases h3
    · next st2 heq =>
      simp only [List.cons_append, Lr.feed]
      rw [heq]
      exact ih h htok

/-! ## C1: UnexpectedToken characterization -/

/-- C1.  A `token` call (including the synthesized end-of-input call inside
`eoi`) raises `UnexpectedToken` if and only if, at some point of the
decision loop — i.e. after a chain of completed reductions — the current
top-of-stack state has no action-table entry for the incoming descriptor;
on a sequence of tokens it is raised exactly at the first token that has no
action in the then-current state, never earlier and never later. -/
theorem c1_unexpected_token_characterization :
    (∀ (spec : Spec) (fuel : Nat) (t : Symbol) (st st2 : LrState)
        (e : Option ParseError),
      Lr.token spec fuel t st = some (st2, e) →
      (e = some ParseError.unexpectedToken ↔
        Lr.ReducePath spec t.desc st.stack st2.stack ∧
        ∃ top rest, st2.stack = top :: rest ∧ spec.action top.2 t.desc = none)) ∧
    (∀ (spec : Spec) (fuel : Nat) (st st2 : LrState),
      Lr.eoi spec fuel st = some (st2, some ParseError.unexpectedToken) ↔
      Lr.token spec fuel (endOfInputSym spec) st
        = some (st2, some ParseError.unexpectedToken)) ∧
    (∀ (spec : Spec) (fuel : Nat) (ts : List Symbol) (st stF : LrState),
      Lr.feed spec fuel ts st = some (stF, some ParseError.unexpectedToken) ↔
      ∃ pre t post st1, ts = pre ++ t :: post ∧
        Lr.feed spec fuel pre st = some (st1, none) ∧
        Lr.token spec fuel t st1 = some (stF, some ParseError.unexpectedToken)) := by
  refine ⟨?_, fun spec fuel st st2 => Lr.eoi_ut_iff, ?_⟩
  · intro spec fuel t st st2 e h
    obtain ⟨hl, -, -⟩ := Lr.token_some_inv h
    constructor
    · intro he
      subst he
      exact Lr.actLoop_ut_forward hl
    · rintro ⟨path, top, rest, hs, hact⟩
      have hr := Lr.actLoop_path_determines path ⟨top, rest, hs, hact⟩ hl
      injection hr with h1 h2
  · intro spec fuel ts st stF
    constructor
    · exact Lr.feed_ut_split
    · rintro ⟨pre, t, post, st1, happ, hpre, htok⟩
      subst happ
      exact Lr.feed_ok_append hpre htok

/-- C1 witness: on the `S → a` grammar, feeding end-of-input as the very
first token raises `UnexpectedToken` at once (state 0 has no entry for
descriptor 1), leaving the stack untouched. -/
theorem c1_unexpected_token_characterization_witness :
    (Lr.ReducePath g1 (Symbol.mk 1 0).desc g1st.stack g1st.stack ∧
      ∃ top rest, g1st.stack = top :: rest ∧
        g1.action top.2 (Symbol.mk 1 0).desc = none) ∧
    Lr.feed g1 10 [Symbol.mk 1 0] g1st = some (g1st, some ParseError.unexpectedToken) :=
  ⟨(c1_unexpected_token_characterization.1 g1 10 (Symbol.mk 1 0) g1st g1st
      (some ParseError.unexpectedToken) (by decide)).mp rfl,
   (c1_unexpected_token_characterization.2.2 g1 10 [Symbol.mk 1 0] g1st g1st).mpr
     ⟨[], Symbol.mk 1 0, [], g1st, rfl, rfl, by decide⟩⟩

/-! ## C5: an UnexpectedToken raise performs no stack mutation -/

/-- C5.  When `token` or `eoi` raises `UnexpectedToken`, the raise itself
mutates nothing: the final stack is exactly the stack produced by the last
completed shift or reduce step (the chain of reductions already performed
in the same call persists — no rollback), and the result and verbose
fields are untouched. -/
theorem c5_ut_no_stack_mutation :
    (∀ (spec : Spec) (fuel : Nat) (t : Symbol) (st st2 : LrState),
      Lr.token spec fuel t st = some (st2, some ParseError.unexpectedToken) →
      Lr.ReducePath spec t.desc st.stack st2.stack ∧
        st2.start = st.start ∧ st2.verbose = st.verbose ∧
        ∃ top rest, st2.stack = top :: rest ∧ spec.action top.2 t.desc = none) ∧
    (∀ (spec : Spec) (fuel : Nat) (st st2 : LrState),
      Lr.eoi spec fuel st = some (st2, some ParseError.unexpectedToken) →
      Lr.ReducePath spec spec.eoiDesc st.stack st2.stack ∧
        st2.start = st.start ∧ st2.verbose = st.verbose) := by
  constructor
  · intro spec fuel t st st2 h
    obtain ⟨hl, hstart, hverb⟩ := Lr.token_some_inv h
    obtain ⟨path, top, rest, hs, hact⟩ := Lr.actLoop_ut_forward hl
    exact ⟨path, hstart, hverb, top, rest, hs, hact⟩
  · intro spec fuel st st2 h
    obtain ⟨hl, hstart, hverb⟩ := Lr.token_some_inv (Lr.eoi_ut_iff.mp h)
    obtain ⟨path, top, rest, hs, hact⟩ := Lr.actLoop_ut_forward hl
    exact ⟨path, hstart, hverb⟩

/-- C5 witness: the immediate `UnexpectedToken` on the `S → a` grammar
leaves the fresh stack, result and flag unchanged. -/
theorem c5_ut_no_stack_mutation_witness :
    Lr.ReducePath g1 (Symbol.mk 1 0).desc g1st.stack g1st.stack ∧
      g1st.start = g1st.start ∧ g1st.verbose = g1st.verbose ∧
      ∃ top rest, g1st.stack = top :: rest ∧
        g1.action top.2 (Symbol.mk 1 0).desc = none :=
  c5_ut_no_stack_mutation.1 g1 10 (Symbol.mk 1 0) g1st g1st (by decide)

/-! ## C2: acceptance and the published result -/

/-- C2 (amended).  On a successful `eoi`, the decision loop has shifted the
synthesized end-of-input sentinel, so the sentinel is on top of the stack
and is popped; the externally visible result is the single-element list
holding the symbol of stack slot 1 — the slot directly above the bottom
sentinel — whose descriptor equals the grammar start descriptor.  (The code
reads `self._stack[1]`, the slot above the bottom, not the slot below the
popped sentinel; the two coincide exactly when one symbol separates the
bottom sentinel from the end-of-input sentinel at acceptance.) -/
theorem c2_eoi_accept_result (spec : Spec) (fuel : Nat) (st st2 : LrState)
    (h : Lr.eoi spec fuel st = some (st2, none)) :
    ∃ st3 n rest entry,
      Lr.token spec fuel (endOfInputSym spec) st = some (st3, none) ∧
      st3.stack = (endOfInputSym spec, n) :: rest ∧
      st2.stack = rest ∧
      rest.reverse.get? 1 = some entry ∧
      st2.start = some [entry.1] ∧
      entry.1.desc = spec.userStartSym ∧
      st2.verbose = st.verbose := by
  simp only [Lr.eoi] at h
  split at h
  · exact Option.noConfusion h
  · next st3 e heq =>
    injection h with h1
    injection h1 with h2 h3
    cases h3
  · next st3 heq =>
    split at h
    · simp at h
    · next topEntry rest hstack =>
      split at h
      · next htop =>
        split at h
        · simp at h
        · next entry hget =>
          split at h
          · next hdesc =>
            injection h with h1
            injection h1 with h2 h3
            subst h2
            refine ⟨st3, topEntry.2, rest, entry, heq, ?_, rfl, hget, rfl, hdesc, ?_⟩
            · rw [hstack, ← htop]
            · exact (Lr.token_some_inv heq).2.2
          · simp at h
      · simp at h

/-- C2 counterexample: with the adversarial shift-everything specification
`cSpec`, the sentence `a b` is accepted, the slot directly below the popped
end-of-input sentinel holds the `b` symbol (descriptor 3), yet the
published result is the `a` symbol of slot 1 (descriptor 2) — not the
symbol below the popped sentinel. -/
theorem c2_eoi_accept_result_counterexample :
    Lr.eoi cSpec 10 cStB = some (cStDone, none) ∧
    cStDone.stack.head?.map Prod.fst = some (Symbol.mk 3 0) ∧
    cStDone.start = some [Symbol.mk 2 0] ∧
    (some [Symbol.mk 2 0] : Option (List Symbol)) ≠ some [Symbol.mk 3 0] :=
  ⟨by decide, by decide, by decide, by decide⟩

/-- C2 witness: on the `S → a` grammar the accepted run publishes the `S`
nonterminal of slot 1, which does carry the start descriptor. -/
theorem c2_eoi_accept_result_witness :
    ∃ st3 n rest entry,
      Lr.token g1 10 (endOfInputSym g1) g1stA = some (st3, none) ∧
      st3.stack = (endOfInputSym g1, n) :: rest ∧
      g1stDone.stack = rest ∧
      rest.reverse.get? 1 = some entry ∧
      g1stDone.start = some [entry.1] ∧
      entry.1.desc = g1.userStartSym ∧
      g1stDone.verbose = g1stA.verbose :=
  c2_eoi_accept_result g1 10 g1stA g1stDone (by decide)

/-- Unpack an equality of observations: either both runs diverged, or both
returned with the same error and states agreeing on stack and result. -/
theorem Lr.obs_rel {r1 r2 : Option (LrState × Option ParseError)}
    (h : Lr.obs r1 = Lr.obs r2) :
    (r1 = none ∧ r2 = none) ∨
    ∃ u1 u2 e, r1 = some (u1, e) ∧ r2 = some (u2, e) ∧
      u1.stack = u2.stack ∧ u1.start = u2.start := by
  cases r1 with
  | none =>
    cases r2 with
    | none => exact Or.inl ⟨rfl, rfl⟩
    | some q => simp [Lr.obs] at h
  | some q1 =>
    cases r2 with
    | none => simp [Lr.obs] at h
    | some q2 =>
      obtain ⟨u1, e1⟩ := q1
      obtain ⟨u2, e2⟩ := q2
      simp [Lr.obs] at h
      obtain ⟨ha, hb, hc⟩ := h
      exact Or.inr ⟨u1, u2, e1, rfl, by rw [hc], ha, hb⟩

/-- `token` observes only the stack and result fields of the state. -/
theorem Lr.token_obs_congr {spec : Spec} {fuel : Nat} {t : Symbol}
    {st1 st2 : LrState} (hs : st1.stack = st2.stack)
    (hst : st1.start = st2.start) :
    Lr.obs (Lr.token spec fuel t st1) = Lr.obs (Lr.token spec fuel t st2) := by
  simp only [Lr.token, Lr.act, Lr.obs]
  rw [hs]
  cases hl : Lr.actLoop spec t t.desc fuel st2.stack with
  | none => rfl
  | some q =>
    obtain ⟨s, e⟩ := q
    simp [hst]

/-- `eoi` observes only the stack and result fields of the state. -/
theorem Lr.eoi_obs_congr {spec : Spec} {fuel : Nat} {st1 st2 : LrState}
    (hs : st1.stack = st2.stack) (hst : st1.start = st2.start) :
    Lr.obs (Lr.eoi spec fuel st1) = Lr.obs (Lr.eoi spec fuel st2) := by
  have htc := @Lr.token_obs_congr spec fuel (endOfInputSym spec) st1 st2 hs hst
  rcases Lr.obs_rel htc with ⟨h1, h2⟩ | ⟨u1, u2, e, h1, h2, hus, hust⟩
  · simp only [Lr.eoi]
    rw [h1, h2]
  · simp only [Lr.eoi]
    rw [h1, h2]
    cases e with
    | some err => simp [Lr.obs, hus, hust]
    | none =>
      simp only []
      rw [hus]
      cases hstk : u2.stack with
      | nil => simp [Lr.obs, hus, hust]
      | cons topEntry rest =>
        by_cases htop : topEntry.1 = endOfInputSym spec
        · simp only [htop, if_true]
          cases hget : rest.reverse.get? 1 with
          | none => simp [Lr.obs, hust]
          | some entry =>
            by_cases hdesc : entry.1.desc = spec.userStartSym
            · simp [hdesc, Lr.obs]
            · simp [hdesc, Lr.obs]
        · simp [htop, Lr.obs, hus, hust]

/-- `feed` observes only the stack and result fields of the state. -/
theorem Lr.feed_obs_congr {spec : Spec} {fuel : Nat} :
    ∀ {ts : List Symbol} {st1 st2 : LrState}, st1.stack = st2.stack →
      st1.start = st2.start →
      Lr.obs (Lr.feed spec fuel ts st1) = Lr.obs (Lr.feed spec fuel ts st2) := by
  intro ts
  induction ts with
  | nil =>
    intro st1 st2 hs hst
    simp [Lr.feed, Lr.obs, hs, hst]
  | cons t ts ih =>
    intro st1 st2 hs hst
    have htc := @Lr.token_obs_congr spec fuel t st1 st2 hs hst
    rcases Lr.obs_rel htc with ⟨h1, h2⟩ | ⟨u1, u2, e, h1, h2, hus, hust⟩
    · simp only [Lr.feed]
      rw [h1, h2]
    · simp only [Lr.feed]
      rw [h1, h2]
      cases e with
      | some err => simp [Lr.obs, hus, hust]
      | none => exact ih hus hust

/-- `run` observes only the stack and result fields of the state. -/
theorem Lr.run_obs_congr {spec : Spec} {fuel : Nat} {ts : List Symbol}
    {st1 st2 : LrState} (hs : st1.stack = st2.stack)
    (hst : st1.start = st2.start) :
    Lr.obs (Lr.run spec fuel ts st1) = Lr.obs (Lr.run spec fuel ts st2) := by
  have hfc := @Lr.feed_obs_congr spec fuel ts st1 st2 hs hst
  rcases Lr.obs_rel hfc with ⟨h1, h2⟩ | ⟨u1, u2, e, h1, h2, hus, hust⟩
  · simp only [Lr.run]
    rw [h1, h2]
  · simp only [Lr.run]
    rw [h1, h2]
    cases e with
    | some err => simp [Lr.obs, hus, hust]
    | none => exact Lr.eoi_obs_congr hus hust

/-! ## C6: reset restores fresh behavior -/

/-- C6.  After any sequence of operations, `reset()` clears the result,
reinstalls the single bottom-sentinel entry at state 0, and the instance is
behaviorally identical to a freshly constructed one: any subsequent input
run produces the same stack, the same published result and the same error
as on the fresh instance. -/
theorem c6_reset_fresh_equivalence (spec : Spec) (st0 : LrState)
    (h : Lr.init spec = Except.ok st0) (st : LrState) (fuel : Nat)
    (ts : List Symbol) :
    (Lr.reset spec st).start = none ∧
    (Lr.reset spec st).stack = [(epsilonSym spec, 0)] ∧
    Lr.obs (Lr.run spec fuel ts (Lr.reset spec st)) =
      Lr.obs (Lr.run spec fuel ts st0) := by
  refine ⟨rfl, rfl, ?_⟩
  rw [Lr.init_ok h]
  exact Lr.run_obs_congr rfl rfl

/-- C6 witness: a reset of a mid-flight, tracing `g1` engine behaves like
the fresh engine on the sentence `a`. -/
theorem c6_reset_fresh_equivalence_witness :
    (Lr.reset g1 (Lr.setVerbose true g1stA)).start = none ∧
    (Lr.reset g1 (Lr.setVerbose true g1stA)).stack = [(epsilonSym g1, 0)] ∧
    Lr.obs (Lr.run g1 10 [Symbol.mk 2 5] (Lr.reset g1 (Lr.setVerbose true g1stA))) =
      Lr.obs (Lr.run g1 10 [Symbol.mk 2 5] g1st) :=
  c6_reset_fresh_equivalence g1 g1st rfl (Lr.setVerbose true g1stA) 10 [Symbol.mk 2 5]

/-! ## C7: tracing is purely observational -/

/-- C7.  The verbose flag is off on a freshly constructed engine, and two
runs differing only in the verbose flag produce identical stacks, identical
results and identical errors. -/
theorem c7_verbose_observational :
    (∀ (spec : Spec) (st0 : LrState), Lr.init spec = Except.ok st0 →
      st0.verbose = false) ∧
    (∀ (spec : Spec) (fuel : Nat) (ts : List Symbol) (st : LrState) (b : Bool),
      Lr.obs (Lr.run spec fuel ts (Lr.setVerbose b st)) =
        Lr.obs (Lr.run spec fuel ts st)) := by
  constructor
  · intro spec st0 h
    rw [Lr.init_ok h]
  · intro spec fuel ts st b
    exact Lr.run_obs_congr rfl rfl

/-- C7 witness: the fresh `g1` engine starts with tracing off. -/
theorem c7_verbose_observational_witness : g1st.verbose = false :=
  c7_verbose_observational.1 g1 g1st rfl

/-! ## C9: the stack invariant -/

/-- A nonempty suffix obtained by `drop` from a list ending in `x` still
ends in `x`. -/
theorem Lr.drop_append_last {α : Type} {x : α} :
    ∀ (pre : List α) (n : Nat) (t : α) (ts : List α),
      (pre ++ [x]).drop n = t :: ts → ∃ pre2, t :: ts = pre2 ++ [x] := by
  intro pre
  induction pre with
  | nil =>
    intro n t ts h
    cases n with
    | zero => exact ⟨[], h.symm⟩
    | succ m => simp at h
  | cons p pre ih =>
    intro n t ts h
    cases n with
    | zero => exact ⟨p :: pre, h.symm⟩
    | succ m => exact ih m t ts h

/-- A successful `_reduce` preserves the stack invariant. -/
theorem Lr.reduce_inv {spec : Spec} {p : Production}
    {stack s : List (Symbol × Nat)} (hinv : Lr.StackInv spec stack)
    (h : Lr.reduce spec p stack = (s, none)) : Lr.StackInv spec s := by
  obtain ⟨pre, hpre⟩ := hinv
  obtain ⟨top, rest, g, hd, hg, hs⟩ := Lr.reduce_ok_shape h
  subst hpre
  obtain ⟨pre2, hp2⟩ := Lr.drop_append_last pre p.rhs.length top rest hd
  subst hs
  rw [hp2]
  exact ⟨_ :: pre2, rfl⟩

/-- The decision loop preserves the stack invariant whenever it does not
end in an internal invariant violation. -/
theorem Lr.actLoop_inv {spec : Spec} {sym : Symbol} {symSpec : Nat} :
    ∀ {fuel : Nat} {stack s : List (Symbol × Nat)} {e : Option ParseError},
      Lr.StackInv spec stack →
      Lr.actLoop spec sym symSpec fuel stack = some (s, e) →
      e ≠ some ParseError.fatal →
      Lr.StackInv spec s := by
  intro fuel
  induction fuel with
  | zero => intro stack s e hinv h hne; exact Option.noConfusion h
  | succ fuel ih =>
    intro stack s e hinv h hne
    cases stack with
    | nil =>
      simp only [Lr.actLoop] at h
      injection h with h1
      injection h1 with h2 h3
      exact absurd h3.symm hne
    | cons top rest =>
      simp only [Lr.actLoop] at h
      split at h
      · injection h with h1
        injection h1 with h2 h3
        subst h2
        exact hinv
      · next actions hact =>
        split at h
        · injection h with h1
          injection h1 with h2 h3
          subst h2
          obtain ⟨pre, hpre⟩ := hinv
          rw [hpre]
          exact ⟨_ :: pre, rfl⟩
        · rename_i p
          split at h
          · next stack2 e2 heq2 =>
            injection h with h1
            injection h1 with h2 h3
            rw [Lr.reduce_error_fatal heq2] at h3
            exact absurd h3.symm hne
          · next stack2 heq2 =>
            exact ih (Lr.reduce_inv hinv heq2) h hne
        · injection h with h1
          injection h1 with h2 h3
          exact absurd h3.symm hne

/-- C9.  After construction or `reset()`, and after every `token()` or
`eoi()` call that returns normally or raises `UnexpectedToken` (a `fatal`
outcome is an internal invariant violation of a malformed specification,
excluded by the claim's correct-compilation hypothesis), the stack is
nonempty and its bottom slot is the Epsilon sentinel at state 0; the
decision state is read from the top entry by every loop iteration. -/
theorem c9_stack_invariant :
    (∀ (spec : Spec) (st0 : LrState), Lr.init spec = Except.ok st0 →
      Lr.StackInv spec st0.stack) ∧
    (∀ (spec : Spec) (st : LrState), Lr.StackInv spec (Lr.reset spec st).stack) ∧
    (∀ (spec : Spec) (fuel : Nat) (t : Symbol) (st st2 : LrState)
        (e : Option ParseError),
      Lr.StackInv spec st.stack → Lr.token spec fuel t st = some (st2, e) →
      e ≠ some ParseError.fatal → Lr.StackInv spec st2.stack) ∧
    (∀ (spec : Spec) (fuel : Nat) (st st2 : LrState) (e : Option ParseError),
      Lr.StackInv spec st.stack → Lr.eoi spec fuel st = some (st2, e) →
      e ≠ some ParseError.fatal → Lr.StackInv spec st2.stack) := by
  refine ⟨?_, ?_, ?_, ?_⟩
  · intro spec st0 h
    rw [Lr.init_ok h]
    exact ⟨[], rfl⟩
  · intro spec st
    exact ⟨[], rfl⟩
  · intro spec fuel t st st2 e hinv htok hne
    obtain ⟨hl, -, -⟩ := Lr.token_some_inv htok
    exact Lr.actLoop_inv hinv hl hne
  · intro spec fuel st st2 e hinv heoi hne
    simp only [Lr.eoi] at heoi
    split at heoi
    · exact Option.noConfusion heoi
    · next st3 e2 heq =>
      injection heoi with h1
      injection h1 with h2 h3
      subst h2
      obtain ⟨hl, -, -⟩ := Lr.token_some_inv heq
      refine Lr.actLoop_inv hinv hl ?_
      rw [h3]
      exact hne
    · next st3 heq =>
      obtain ⟨hl, -, -⟩ := Lr.token_some_inv heq
      have hinv3 : Lr.StackInv spec st3.stack :=
        Lr.actLoop_inv hinv hl (by simp)
      split at heoi
      · injection heoi with h1
        injection h1 with h2 h3
        exact absurd h3.symm hne
      · next topEntry rest hstack =>
        split at heoi
        · next htop =>
          split at heoi
          · injection heoi with h1
            injection h1 with h2 h3
            exact absurd h3.symm hne
          · next entry hget =>
            split at heoi
            · next hdesc =>
              injection heoi with h1
              injection h1 with h2 h3
              subst h2
              obtain ⟨pre, hpre⟩ := hinv3
              rw [hstack] at hpre
              cases pre with
              | nil =>
                injection hpre with hh ht
                rw [ht] at hget
                simp at hget
              | cons q pre =>
                injection hpre with hh ht
                exact ⟨pre, ht⟩
            · injection heoi with h1
              injection h1 with h2 h3
              exact absurd h3.symm hne
        · injection heoi with h1
          injection h1 with h2 h3
          exact absurd h3.symm hne

/-- C9 witness: the invariant holds after the shift of `a` and after the
accepting `eoi` on the `S → a` grammar. -/
theorem c9_stack_invariant_witness :
    Lr.StackInv g1 g1stA.stack ∧ Lr.StackInv g1 g1stDone.stack :=
  ⟨c9_stack_invariant.2.2.1 g1 10 (Symbol.mk 2 5) g1st g1stA none
      ⟨[], rfl⟩ (by decide) (by decide),
   c9_stack_invariant.2.2.2 g1 10 g1stA g1stDone none
      ⟨[(Symbol.mk 2 5, 1)], rfl⟩ (by decide) (by decide)⟩

end Parsing
